import Mathlib

/-!
# ghe-license-mailer: a shallow embedding of `main.go`

The program fetches the settings and the license of a GitHub Enterprise Server,
fills a fixed text template and hands the result to an SMTP client.  Everything
the program does to the outside world (standard output, the error stream, HTTP
requests, the SMTP transport, `os.Exit`) is recorded as a list of `Event`s, and
everything it reads from the outside world (the clock, HTTP responses, decoded
JSON, the SMTP transport's answer) is a field of `World`.
-/

namespace GheLicenseMailer

/-! ## Data model (`main.go`, lines 24-70) -/

/-- The record `License` of the source. -/
structure License where
  Seats : String
  SeatsUsed : Int
  SeatsAvailable : String
  Kind : String
  DaysUntilExpiration : Int
  ExpireAt : String
  deriving DecidableEq, Repr

/-- The record `SMTP` of the source. -/
structure SMTP where
  Enabled : Bool
  Address : String
  Port : Int
  Auth : String
  Username : String
  Password : String
  From : String
  deriving DecidableEq, Repr

/-- The field `Customer` of `Settings.Enterprise`. -/
structure Customer where
  Name : String
  deriving DecidableEq, Repr

/-- The field `Enterprise` of `Settings`. -/
structure Enterprise where
  Customer : Customer
  SMTP : SMTP
  deriving DecidableEq, Repr

/-- The record `Settings` of the source. -/
structure Settings where
  Enterprise : Enterprise
  deriving DecidableEq, Repr

/-- The record `Template` of the source: the fields the report is rendered from. -/
structure Template where
  Date : String
  Time : String
  TZ : String
  Company : String
  From : String
  To : String
  SeatsUsed : Int
  Seats : String
  SeatsAvailable : String
  DaysUntilExpiration : Int
  ExpireAt : String
  deriving DecidableEq, Repr

/-- The resolved options (the package-level variables `help`, `cfg`, `hostname`,
`port`, `pwd`, `token`, `to` after `init` has read them back from viper). -/
structure Options where
  help : Bool
  cfg : String
  hostname : String
  port : Int
  pwd : String
  token : String
  to_ : List String
  deriving DecidableEq, Repr

/-! ## The template constant `tpl` (lines 94-104) -/

/-- The constant `tpl`, line by line as in the source. -/
def tpl : String :=
  "Subject: {{.Company}}: GitHub Enterprise Server license usage report {{.Date}}\n" ++
  "From: {{.From}}\n" ++
  "To: {{.To}}\n" ++
  "\n" ++
  "On {{.Date}} at {{.Time}} {{.TZ}} (servertime) {{.Company}} has assigned {{.SeatsUsed}} seats of their {{.Seats}} available.{{if .SeatsAvailable}}\n" ++
  "{{.SeatsAvailable}} seats remaining.{{end}}\n" ++
  "\n" ++
  "License will expire in {{.DaysUntilExpiration}} days on {{.ExpireAt}}.\n" ++
  "\n" ++
  "---\n" ++
  "This email was gernerated automatically."

/-! ## A model of `text/template` for the constructs `tpl` uses -/

/-- Lexical items of a template: literal text, and the three actions
`{{.Field}}`, `{{if .Field}}` and `{{end}}`. -/
inductive Token where
  | text (s : String)
  | field (name : String)
  | ifField (name : String)
  | endBlock
  deriving DecidableEq, Repr

/-- Parsed template: text, a field action, or a conditional block on a field. -/
inductive Node where
  | text (s : String)
  | field (name : String)
  | cond (name : String) (body : List Node)
  deriving Repr

/-- Drop leading blanks of an action. -/
def trimLeft : List Char → List Char
  | ' ' :: cs => trimLeft cs
  | cs => cs

/-- Drop trailing blanks of an action. -/
def trimRight (cs : List Char) : List Char :=
  (trimLeft cs.reverse).reverse

/-- Read the inside of `{{ ... }}`: a field, `if` on a field, or `end`. -/
def parseAction (cs : List Char) : Option Token :=
  match trimRight (trimLeft cs) with
  | '.' :: name => if name.all Char.isAlphanum ∧ name ≠ [] then some (.field (String.mk name)) else none
  | 'i' :: 'f' :: ' ' :: rest =>
    match trimLeft rest with
    | '.' :: name => if name.all Char.isAlphanum ∧ name ≠ [] then some (.ifField (String.mk name)) else none
    | _ => none
  | ['e', 'n', 'd'] => some .endBlock
  | _ => none

/-- Emit the pending literal text (kept in reverse), if there is any. -/
def flushText (acc : List Char) (ts : List Token) : List Token :=
  if acc = [] then ts else .text (String.mk acc.reverse) :: ts

/-- The lexer: `inAction` tells whether the cursor is between `{{` and `}}`;
`acc` is the text or action read so far, in reverse. -/
def lex : Bool → List Char → List Char → Option (List Token)
  | false, acc, [] => some (flushText acc [])
  | true, _, [] => none
  | true, acc, '}' :: '}' :: rest =>
    match parseAction acc.reverse, lex false [] rest with
    | some t, some ts => some (t :: ts)
    | _, _ => none
  | true, acc, c :: cs => lex true (c :: acc) cs
  | false, acc, '{' :: '{' :: rest => (lex true [] rest).map (flushText acc)
  | false, acc, c :: cs => lex false (c :: acc) cs

/-- Build the tree: `stack` holds the enclosing `if` blocks with the nodes
read before each of them, `cur` the nodes of the current block in reverse. -/
def buildTree (stack : List (String × List Node)) (cur : List Node) :
    List Token → Option (List Node)
  | [] => if stack.isEmpty then some cur.reverse else none
  | .text s :: ts => buildTree stack (.text s :: cur) ts
  | .field f :: ts => buildTree stack (.field f :: cur) ts
  | .ifField f :: ts => buildTree ((f, cur) :: stack) [] ts
  | .endBlock :: ts =>
    match stack with
    | [] => none
    | (f, outer) :: st => buildTree st (.cond f cur.reverse :: outer) ts

/-- The call `template.New("licensemail").Parse(text)`, `none` on a parse error. -/
def parseTemplate (text : String) : Option (List Node) :=
  (lex false [] text.toList).bind (buildTree [] [])

/-- A field value as the template engine sees it. -/
inductive Value where
  | str (s : String)
  | int (i : Int)
  deriving DecidableEq, Repr

/-- Field lookup by name on the `Template` record. -/
def Template.lookup (d : Template) (name : String) : Option Value :=
  if name = "Date" then some (.str d.Date)
  else if name = "Time" then some (.str d.Time)
  else if name = "TZ" then some (.str d.TZ)
  else if name = "Company" then some (.str d.Company)
  else if name = "From" then some (.str d.From)
  else if name = "To" then some (.str d.To)
  else if name = "SeatsUsed" then some (.int d.SeatsUsed)
  else if name = "Seats" then some (.str d.Seats)
  else if name = "SeatsAvailable" then some (.str d.SeatsAvailable)
  else if name = "DaysUntilExpiration" then some (.int d.DaysUntilExpiration)
  else if name = "ExpireAt" then some (.str d.ExpireAt)
  else none

/-- Truth of a value in `{{if}}`: a non-empty string, a non-zero integer. -/
def Value.isTrue : Value → Bool
  | .str s => s ≠ ""
  | .int i => i ≠ 0

/-- How a value is printed: a string as it is, an integer in decimal. -/
def Value.print : Value → String
  | .str s => s
  | .int i => toString i

mutual
/-- Execute one node on the data; an unknown field is an execution error. -/
def execNode (d : Template) : Node → Except String String
  | .text s => .ok s
  | .field f =>
    match d.lookup f with
    | some v => .ok v.print
    | none => .error ("cannot evaluate field " ++ f)
  | .cond f body =>
    match d.lookup f with
    | some v => if v.isTrue then execNodes d body else .ok ""
    | none => .error ("cannot evaluate field " ++ f)
/-- Execute a list of nodes, concatenating the output. -/
def execNodes (d : Template) : List Node → Except String String
  | [] => .ok ""
  | n :: ns =>
    match execNode d n with
    | .error e => .error e
    | .ok a =>
      match execNodes d ns with
      | .error e => .error e
      | .ok b => .ok (a ++ b)
end

/-- The call `tmpl.Execute(&b, data)` for a template text: the rendered bytes, or the error. -/
def executeTemplate (text : String) (d : Template) : Except String String :=
  match parseTemplate text with
  | some ns => execNodes d ns
  | none => .error "template: parse error"

/-! ## The clock and `time.Parse(time.RFC3339, ...)` -/

/-- The civil date `Time.Date()` returns: year, month, day. -/
structure CivilDate where
  year : Int
  month : Nat
  day : Nat
  deriving DecidableEq, Repr

/-- What `main` reads from `start := time.Now()`: the date, hour, minute and
the zone abbreviation. -/
structure Clock where
  date : CivilDate
  hour : Nat
  minute : Nat
  zone : String
  deriving DecidableEq, Repr

/-- The date of the zero `time.Time`: January 1 of year 1. -/
def zeroDate : CivilDate := ⟨1, 1, 1⟩

/-- The method `Month.String()`: the English name, or `%!Month(n)` out of range. -/
def monthString (m : Nat) : String :=
  match m with
  | 1 => "January"
  | 2 => "February"
  | 3 => "March"
  | 4 => "April"
  | 5 => "May"
  | 6 => "June"
  | 7 => "July"
  | 8 => "August"
  | 9 => "September"
  | 10 => "October"
  | 11 => "November"
  | 12 => "December"
  | n => "%!Month(" ++ toString n ++ ")"

/-- The call `fmt.Sprintf("%v %v, %v", month, day, year)`. -/
def formatDate (d : CivilDate) : String :=
  monthString d.month ++ " " ++ toString d.day ++ ", " ++ toString d.year

/-- The verb `%02d` on a non-negative number. -/
def pad2 (n : Nat) : String :=
  if n < 10 then "0" ++ toString n else toString n

/-- The call `fmt.Sprintf("%02d:%02d", hour, minute)`. -/
def formatTime (hour minute : Nat) : String :=
  pad2 hour ++ ":" ++ pad2 minute

/-- Value of a decimal digit. -/
def digitVal (c : Char) : Option Nat :=
  if '0' ≤ c ∧ c ≤ '9' then some (c.toNat - '0'.toNat) else none

/-- The helper `getnum(s, fixed)` of package `time`: one or two digits, exactly
two when `fixed`. -/
def getnum (fixed : Bool) : List Char → Option (Nat × List Char)
  | a :: b :: rest =>
    match digitVal a, digitVal b with
    | some x, some y => some (10 * x + y, rest)
    | some x, none => if fixed then none else some (x, b :: rest)
    | none, _ => none
  | [a] =>
    match digitVal a with
    | some x => if fixed then none else some (x, [])
    | none => none
  | [] => none

/-- Four-digit year (`stdLongYear`). -/
def getYear : List Char → Option (Nat × List Char)
  | a :: b :: c :: d :: rest =>
    match digitVal a, digitVal b, digitVal c, digitVal d with
    | some w, some x, some y, some z => some (1000 * w + 100 * x + 10 * y + z, rest)
    | _, _, _, _ => none
  | _ => none

/-- Expect the literal character `c` of the layout. -/
def expectChar (c : Char) : List Char → Option (List Char)
  | x :: rest => if x = c then some rest else none
  | [] => none

/-- Skip a fractional second in the input (`.` or `,` and digits), which
`time.Parse` accepts after the seconds although the layout has none. -/
def skipFraction : List Char → List Char
  | p :: d :: rest =>
    if (p = '.' ∨ p = ',') ∧ (digitVal d).isSome then rest.dropWhile (fun c => (digitVal c).isSome)
    else p :: d :: rest
  | cs => cs

/-- The zone of the layout (`Z07:00`): `Z`, or a sign, two digits, a colon and
two digits, the hour at most 24 and the minute at most 60; nothing may follow. -/
def zoneOk : List Char → Bool
  | ['Z'] => true
  | [s, h1, h2, ':', m1, m2] =>
    match getnum true [h1, h2], getnum true [m1, m2] with
    | some (hr, _), some (mm, _) => (s = '+' ∨ s = '-') ∧ hr ≤ 24 ∧ mm ≤ 60
    | _, _ => false
  | _ => false

/-- The function `isLeap` of package `time`. -/
def isLeap (year : Nat) : Bool :=
  year % 4 = 0 ∧ (year % 100 ≠ 0 ∨ year % 400 = 0)

/-- The function `daysIn` of package `time`. -/
def daysIn (month year : Nat) : Nat :=
  if month = 2 then (if isLeap year then 29 else 28)
  else if month = 4 ∨ month = 6 ∨ month = 9 ∨ month = 11 then 30
  else 31

/-- A two-digit field of the layout that must stay below `bound`. -/
def getField (bound : Nat) (fixed : Bool) (cs : List Char) : Option (Nat × List Char) :=
  match getnum fixed cs with
  | some (n, rest) => if n < bound then some (n, rest) else none
  | none => none

/-- The date part `2006-01-02` of the layout: year, month (1 to 12), day. -/
def parseDatePart (cs : List Char) : Option (Nat × Nat × Nat × List Char) :=
  match getYear cs with
  | none => none
  | some (year, r) =>
    match (expectChar '-' r).bind (getField 13 true) with
    | none => none
    | some (month, r) =>
      match (expectChar '-' r).bind (getnum true) with
      | none => none
      | some (day, r) => if month = 0 then none else some (year, month, day, r)

/-- The clock part `T15:04:05` of the layout: hour below 24 (one or two
digits), minute and second below 60; the rest of the input is returned. -/
def parseClockPart (cs : List Char) : Option (List Char) :=
  match (expectChar 'T' cs).bind (getField 24 false) with
  | none => none
  | some (_, r) =>
    match (expectChar ':' r).bind (getField 60 true) with
    | none => none
    | some (_, r) =>
      match (expectChar ':' r).bind (getField 60 true) with
      | none => none
      | some (_, r) => some r

/-- The call `time.Parse(time.RFC3339, s)` followed by `.Date()`: the layout is
`2006-01-02T15:04:05Z07:00`; `none` stands for a parse error.  The date of
the result is the date written in the input, whatever the zone. -/
def parseRFC3339 (s : String) : Option CivilDate :=
  match parseDatePart s.toList with
  | none => none
  | some (year, month, day, r) =>
    match parseClockPart r with
    | none => none
    | some r =>
      if zoneOk (skipFraction r) ∧ 1 ≤ day ∧ day ≤ daysIn month year then
        some ⟨year, month, day⟩
      else none

/-- Lines 171-172 of `main`: `e, _ := time.Parse(...)`; `e.Date()`.  On a parse
error `e` is the zero time. -/
def expireDate (expireAt : String) : CivilDate :=
  (parseRFC3339 expireAt).getD zeroDate

/-! ## The outside world -/

/-- The value `smtp.Auth` built by `sendMail`. -/
inductive Auth where
  | PlainAuth (identity username password host : String)
  | CRAMMD5Auth (username secret : String)
  deriving DecidableEq, Repr

/-- One call of `smtp.SendMail(addr, auth, from, to, msg)`. -/
structure SendRequest where
  addr : String
  auth : Auth
  sender : String
  rcpts : List String
  msg : String
  deriving DecidableEq, Repr

/-- What an HTTP request gives back: a transport error, or a response with its
status code, status text and body. -/
inductive HttpResult where
  | failure (err : String)
  | response (statusCode : Int) (status : String) (body : String)
  deriving DecidableEq, Repr

/-- Which client sends a request: `http.DefaultClient`, or the OAuth2 client
built in `init` from the static token. -/
inductive Client where
  | default
  | oauth2 (accessToken : String)
  deriving DecidableEq, Repr

/-- Everything observable the program does, in order. -/
inductive Event where
  | stdout (s : String)
  | printHelp
  | stderrError (msg : String)
  | newOAuth2Client (accessToken : String)
  | httpGet (client : Client) (url : String)
  | smtpSendMail (req : SendRequest)
  deriving DecidableEq, Repr

/-- Everything the program reads from outside. -/
structure World where
  /-- The value of `time.Now()` at the start of `main`. -/
  start : Clock
  /-- The text of `time.Now().Sub(start).Round(time.Millisecond)` at the end. -/
  elapsed : String
  /-- Whether `viper.ReadInConfig()` returns an error. -/
  readInConfigFails : Bool
  /-- The answer to a GET of the URL by the client. -/
  http : Client → String → HttpResult
  /-- The state of `settings` after `json.Unmarshal(body, &settings)`. -/
  unmarshalSettings : String → Settings
  /-- The state of `license` after `json.Unmarshal(body, &license)`. -/
  unmarshalLicense : String → License
  /-- The result of `smtp.SendMail`: `none` for `nil`, or the error. -/
  smtpSendMail : SendRequest → Option String

/-- A computation that may call `os.Exit`: either it returns a value, or the
process has exited with a status; both carry the events so far. -/
inductive Proc (α : Type) where
  | ret (log : List Event) (val : α)
  | exit (log : List Event) (code : Nat)
  deriving Repr

/-- Sequencing: nothing runs after an exit. -/
def Proc.bind {α β : Type} (x : Proc α) (f : α → Proc β) : Proc β :=
  match x with
  | .exit log code => .exit log code
  | .ret log a =>
    match f a with
    | .ret log2 b => .ret (log ++ log2) b
    | .exit log2 code => .exit (log ++ log2) code

instance : Monad Proc where
  pure a := .ret [] a
  bind := Proc.bind

/-- Record one event. -/
def emit (e : Event) : Proc Unit := .ret [e] ()

/-- The call `os.Exit(code)`. -/
def osExit {α : Type} (code : Nat) : Proc α := .exit [] code

/-- The events of a computation. -/
def Proc.log {α : Type} : Proc α → List Event
  | .ret log _ => log
  | .exit log _ => log

/-- The exit status, when the computation has exited. -/
def Proc.exitCode {α : Type} : Proc α → Option Nat
  | .ret _ _ => none
  | .exit _ code => some code

/-- Whether an event is network activity: an HTTP request or an SMTP send. -/
def Event.isNetwork : Event → Bool
  | .httpGet _ _ => true
  | .smtpSendMail _ => true
  | _ => false

/-! ## The program (`main.go`, lines 106-348) -/

/-- The function `errorAndExit`: print the error in red to the error stream, exit 1. -/
def errorAndExit {α : Type} (err : String) : Proc α := do
  emit (.stderrError err)
  osExit 1

/-- The function `printHelp`: the usage text on standard output. -/
def printHelp : Proc Unit := emit .printHelp

/-- The function `printHelpOnError`: the usage text, the error line, exit 1. -/
def printHelpOnError {α : Type} (s : String) : Proc α := do
  printHelp
  emit (.stderrError s)
  osExit 1

/-- The function `validateFlags` (lines 294-322). -/
def validateFlags (o : Options) : Proc Unit := do
  if o.help then
    printHelp
    osExit 0
  if o.hostname = "" then
    printHelpOnError "hostname missing"
  if o.hostname = "github.com" then
    printHelpOnError "github.com is not supported"
  if o.token = "" then
    printHelpOnError "token missing"
  if o.pwd = "" then
    printHelpOnError "password missing"
  if o.to_.length < 1 then
    printHelpOnError "recipients missing"

/-- The function `init` from the point where the configuration is read
(lines 129-153); the result is the package-level `httpClient`. -/
def init (w : World) (o : Options) : Proc Client := do
  if w.readInConfigFails ∧ o.cfg ≠ "" then
    printHelpOnError ("config file ghe-license-mailer.yml not found in " ++ o.cfg)
  validateFlags o
  emit (.newOAuth2Client o.token)
  pure (.oauth2 o.token)

/-- The function `getRecipients`: `strings.Join(to[:], ",")`. -/
def getRecipients (to_ : List String) : String :=
  ",".intercalate to_

/-- The URL of `getSettings` (line 236). -/
def settingsURL (o : Options) : String :=
  "https://api_key:" ++ o.pwd ++ "@" ++ o.hostname ++ ":" ++ toString o.port ++ "/setup/api/settings"

/-- The URL of `getLicense` (line 215). -/
def licenseURL (o : Options) : String :=
  "https://" ++ o.hostname ++ "/api/v3/enterprise/settings/license"

/-- The function `getSettings` (lines 235-259); the result is the
package-level `settings`. -/
def getSettings (w : World) (o : Options) : Proc Settings := do
  emit (.httpGet .default (settingsURL o))
  match w.http .default (settingsURL o) with
  | .failure err => errorAndExit err
  | .response statusCode status body =>
    if statusCode ≠ 200 then
      errorAndExit ("couldn't get settings (" ++ status ++ ")")
    else
      let settings := w.unmarshalSettings body
      if !settings.Enterprise.SMTP.Enabled then
        emit (.stderrError body)
        osExit 1
      else
        pure settings

/-- The function `getLicense` (lines 214-233); the result is the
package-level `license`. -/
def getLicense (w : World) (o : Options) (httpClient : Client) : Proc License := do
  emit (.httpGet httpClient (licenseURL o))
  match w.http httpClient (licenseURL o) with
  | .failure err => errorAndExit err
  | .response statusCode status body =>
    if statusCode ≠ 200 then
      errorAndExit ("couldn't get license (" ++ status ++ ")")
    else
      pure (w.unmarshalLicense body)

/-- The `switch s.Auth` of `sendMail` (lines 271-278); `none` is the
`default` branch. -/
def selectAuth (s : SMTP) : Option Auth :=
  if s.Auth = "plain" ∨ s.Auth = "login" then
    some (.PlainAuth "" s.Username s.Password s.Address)
  else if s.Auth = "cram_md5" then
    some (.CRAMMD5Auth s.Username s.Password)
  else
    none

/-- The function `sendMail` (lines 261-287); `to_` is the package-level `to`.
The result is the returned error, `none` for `nil`. -/
def sendMail (w : World) (to_ : List String) (body : String) (s : SMTP) :
    Proc (Option String) :=
  let addr := s.Address ++ ":" ++ toString s.Port
  match selectAuth s with
  | none => pure (some "authentication required")
  | some auth => do
    let req : SendRequest := ⟨addr, auth, s.From, to_, body⟩
    emit (.smtpSendMail req)
    pure (w.smtpSendMail req)

/-- Lines 174-176 of `main`: the package-level `available` starts empty and
takes the license's value unless that is `unlimited`. -/
def available (license : License) : String :=
  if license.SeatsAvailable ≠ "unlimited" then license.SeatsAvailable else ""

/-- Lines 171-193 of `main`: the `Template` value `data`. -/
def buildTemplate (start : Clock) (settings : Settings) (license : License)
    (to_ : List String) : Template where
  Date := formatDate start.date
  Time := formatTime start.hour start.minute
  TZ := start.zone
  Company := settings.Enterprise.Customer.Name
  From := settings.Enterprise.SMTP.From
  To := getRecipients to_
  SeatsUsed := license.SeatsUsed
  Seats := license.Seats
  SeatsAvailable := available license
  DaysUntilExpiration := license.DaysUntilExpiration
  ExpireAt := formatDate (expireDate license.ExpireAt)

/-- Lines 171-200 of `main` as a function: the rendered message, or the
error of `tmpl.Execute`. -/
def renderReport (start : Clock) (settings : Settings) (license : License)
    (to_ : List String) : Except String String :=
  executeTemplate tpl (buildTemplate start settings license to_)

/-- The function `main` (lines 156-212). -/
def main (w : World) (o : Options) (httpClient : Client) : Proc Unit := do
  emit (.stdout "Retrieving settings...")
  let settings ← getSettings w o
  emit (.stdout "done\n")
  emit (.stdout "Retrieving license information...")
  let license ← getLicense w o httpClient
  emit (.stdout "done\n")
  match renderReport w.start settings license o.to_ with
  | .error err => errorAndExit err
  | .ok b =>
    emit (.stdout "Sending license information...")
    match ← sendMail w o.to_ b settings.Enterprise.SMTP with
    | some err => errorAndExit err
    | none =>
      emit (.stdout "done\n")
      emit (.stdout ("\nDone after " ++ w.elapsed ++ "\n"))

/-- The whole process: `init`, then `main`. -/
def program (w : World) (o : Options) : Proc Unit := do
  let httpClient ← init w o
  main w o httpClient

/-- The exit status of the process: 0 when `main` returns. -/
def exitStatus (p : Proc Unit) : Nat :=
  match p with
  | .ret _ _ => 0
  | .exit _ code => code

/-! ## Closed forms and concrete inputs used by the statements -/

/-- The tree `template.Parse` builds from `tpl`. -/
def tplNodes : List Node :=
  [.text "Subject: ", .field "Company",
   .text ": GitHub Enterprise Server license usage report ", .field "Date",
   .text "\nFrom: ", .field "From",
   .text "\nTo: ", .field "To",
   .text "\n\nOn ", .field "Date", .text " at ", .field "Time", .text " ", .field "TZ",
   .text " (servertime) ", .field "Company", .text " has assigned ", .field "SeatsUsed",
   .text " seats of their ", .field "Seats", .text " available.",
   .cond "SeatsAvailable" [.text "\n", .field "SeatsAvailable", .text " seats remaining."],
   .text "\n\nLicense will expire in ", .field "DaysUntilExpiration",
   .text " days on ", .field "ExpireAt",
   .text ".\n\n---\nThis email was gernerated automatically."]

/-- The text of `tpl` with the block `{{if .SeatsAvailable}} ... {{end}}` taken out. -/
def tplWithoutSeatsLine : String :=
  "Subject: {{.Company}}: GitHub Enterprise Server license usage report {{.Date}}\n" ++
  "From: {{.From}}\n" ++
  "To: {{.To}}\n" ++
  "\n" ++
  "On {{.Date}} at {{.Time}} {{.TZ}} (servertime) {{.Company}} has assigned {{.SeatsUsed}} seats of their {{.Seats}} available.\n" ++
  "\n" ++
  "License will expire in {{.DaysUntilExpiration}} days on {{.ExpireAt}}.\n" ++
  "\n" ++
  "---\n" ++
  "This email was gernerated automatically."

/-- Concatenation of the pieces of a text, from the right. -/
def pieces (xs : List String) : String :=
  xs.foldr (fun a b => a ++ b) ""

/-- The seats-remaining block of the report: empty for an empty value. -/
def seatsBlock (v : String) : String :=
  if v = "" then "" else "\n" ++ (v ++ " seats remaining.")

/-- The lines of a text: the pieces between line feeds. -/
def splitLines : List Char → List (List Char)
  | [] => [[]]
  | c :: cs =>
    match splitLines cs with
    | [] => [[]]
    | l :: ls => if c = '\n' then [] :: l :: ls else (c :: l) :: ls

/-- A text without a line feed. -/
def singleLine (s : String) : Prop := '\n' ∉ s.toList

instance (s : String) : Decidable (singleLine s) := by
  unfold singleLine
  infer_instance

/-- The three header lines of the message, as the claim writes them. -/
def subjectLine (d : Template) : String :=
  "Subject: " ++ d.Company ++ ": GitHub Enterprise Server license usage report " ++ d.Date

/-- The header `From`. -/
def fromLine (d : Template) : String := "From: " ++ d.From

/-- The header `To`. -/
def toLine (d : Template) : String := "To: " ++ d.To

/-- The SMTP settings of the end-to-end example. -/
def acmeSMTP : SMTP :=
  { Enabled := true, Address := "smtp.acme.test", Port := 587, Auth := "plain",
    Username := "u", Password := "p", From := "noreply@acme.test" }

/-- The settings of the end-to-end example. -/
def acmeSettings : Settings := { Enterprise := { Customer := { Name := "Acme" }, SMTP := acmeSMTP } }

/-- The license of the end-to-end example. -/
def acmeLicense : License :=
  { Seats := "500", SeatsUsed := 420, SeatsAvailable := "80", Kind := "",
    DaysUntilExpiration := 30, ExpireAt := "2025-03-01T00:00:00Z" }

/-- A clock reading: May 7, 2024, 09:03 CET. -/
def sampleClock : Clock := { date := ⟨2024, 5, 7⟩, hour := 9, minute := 3, zone := "CET" }

/-- Complete options: every required value present. -/
def sampleOptions : Options :=
  { help := false, cfg := "", hostname := "ghe.acme.test", port := 8443, pwd := "secret",
    token := "t0ken", to_ := ["ops@acme.test", "cfo@acme.test"] }

/-- A world in which every request succeeds and the example's settings and
license are served. -/
def sampleWorld : World :=
  { start := sampleClock
    elapsed := "12ms"
    readInConfigFails := false
    http := fun _ _ => .response 200 "200 OK" "{}"
    unmarshalSettings := fun _ => acmeSettings
    unmarshalLicense := fun _ => acmeLicense
    smtpSendMail := fun _ => none }

/-- Options that ask for help and give nothing else. -/
def helpOnlyOptions : Options :=
  { help := true, cfg := "", hostname := "", port := 8443, pwd := "", token := "", to_ := [] }

/-- The settings of the example with SMTP switched off. -/
def disabledSettings : Settings :=
  { Enterprise := { Customer := { Name := "Acme" }, SMTP := { acmeSMTP with Enabled := false } } }

/-- A world whose settings endpoint answers 200 with SMTP switched off. -/
def disabledWorld : World := { sampleWorld with unmarshalSettings := fun _ => disabledSettings }

/-- The end of the example's report, from the fixed text after the time zone on. -/
def acmeTail : String :=
  pieces [" (servertime) ", "Acme", " has assigned ", toString (420 : Int), " seats of their ",
    "500", " available.", seatsBlock "80", "\n\nLicense will expire in ", toString (30 : Int),
    " days on ", formatDate (expireDate "2025-03-01T00:00:00Z"),
    ".\n\n---\nThis email was gernerated automatically."]

/-- The license of the example with an empty `seats_available`. -/
def emptySeatsLicense : License := { acmeLicense with SeatsAvailable := "" }

/-- The report for `emptySeatsLicense` at `sampleClock`. -/
def emptySeatsReport : String :=
  "Subject: Acme: GitHub Enterprise Server license usage report May 7, 2024\n" ++
  "From: noreply@acme.test\n" ++
  "To: ops@acme.test\n" ++
  "\n" ++
  "On May 7, 2024 at 09:03 CET (servertime) Acme has assigned 420 seats of their 500 available.\n" ++
  "\n" ++
  "License will expire in 30 days on March 1, 2025.\n" ++
  "\n" ++
  "---\n" ++
  "This email was gernerated automatically."

/-- The settings of the example with line feeds in the customer name. -/
def injectedSettings : Settings :=
  { Enterprise := { Customer := { Name := "Acme\n\nInc" }, SMTP := acmeSMTP } }

/-- The report for `injectedSettings` at `sampleClock`. -/
def injectedReport : String :=
  "Subject: Acme\n" ++
  "\n" ++
  "Inc: GitHub Enterprise Server license usage report May 7, 2024\n" ++
  "From: noreply@acme.test\n" ++
  "To: ops@acme.test\n" ++
  "\n" ++
  "On May 7, 2024 at 09:03 CET (servertime) Acme\n" ++
  "\n" ++
  "Inc has assigned 420 seats of their 500 available.\n" ++
  "80 seats remaining.\n" ++
  "\n" ++
  "License will expire in 30 days on March 1, 2025.\n" ++
  "\n" ++
  "---\n" ++
  "This email was gernerated automatically."

/-- The world in which every decoded license carries the given `expire_at`. -/
def withExpireAt (w : World) (expireAt : String) : World :=
  { w with unmarshalLicense := fun body => { w.unmarshalLicense body with ExpireAt := expireAt } }

/-- The body of the report: what the template renders after the blank line. -/
def reportBody (d : Template) : String :=
  pieces ["On ", d.Date, " at ", d.Time, " ", d.TZ, " (servertime) ", d.Company,
       " has assigned ", toString d.SeatsUsed, " seats of their ", d.Seats, " available.",
       seatsBlock d.SeatsAvailable,
       "\n\nLicense will expire in ", toString d.DaysUntilExpiration, " days on ", d.ExpireAt,
       ".\n\n---\nThis email was gernerated automatically."]

/-- A world whose license carries an `expire_at` that is no timestamp. -/
def badExpiryWorld : World := withExpireAt sampleWorld "next spring"

/-! ## Lemmas on the process monad and the functions of the program -/

@[simp] theorem Proc.pure_eq {α : Type} (a : α) : (pure a : Proc α) = .ret [] a := rfl

@[simp] theorem Proc.bind_eq {α β : Type} (x : Proc α) (f : α → Proc β) :
    x >>= f = Proc.bind x f := rfl

@[simp] theorem Proc.bind_exit {α β : Type} (log : List Event) (code : Nat) (f : α → Proc β) :
    Proc.bind (.exit log code) f = .exit log code := rfl

theorem printHelpOnError_eq {α : Type} (s : String) :
    (printHelpOnError s : Proc α) = .exit [.printHelp, .stderrError s] 1 := rfl

theorem errorAndExit_eq {α : Type} (err : String) :
    (errorAndExit err : Proc α) = .exit [.stderrError err] 1 := rfl

/-- The function `validateFlags` as a cascade of tests. -/
theorem validateFlags_eq (o : Options) :
    validateFlags o =
      if o.help then .exit [.printHelp] 0
      else if o.hostname = "" then .exit [.printHelp, .stderrError "hostname missing"] 1
      else if o.hostname = "github.com" then
        .exit [.printHelp, .stderrError "github.com is not supported"] 1
      else if o.token = "" then .exit [.printHelp, .stderrError "token missing"] 1
      else if o.pwd = "" then .exit [.printHelp, .stderrError "password missing"] 1
      else if o.to_ = [] then .exit [.printHelp, .stderrError "recipients missing"] 1
      else .ret [] () := by
  unfold validateFlags
  split_ifs <;>
    simp_all [printHelpOnError_eq, printHelp, emit, osExit, Proc.bind, List.length_eq_zero]

/-- The function `init` as a cascade: the configuration file, then `validateFlags`. -/
theorem init_eq (w : World) (o : Options) :
    init w o =
      if w.readInConfigFails = true ∧ o.cfg ≠ "" then
        .exit [.printHelp,
          .stderrError ("config file ghe-license-mailer.yml not found in " ++ o.cfg)] 1
      else
        Proc.bind (validateFlags o) (fun _ => .ret [.newOAuth2Client o.token] (.oauth2 o.token)) := by
  unfold init
  split_ifs with h
  · simp [h, printHelpOnError_eq]
  · simp [h, emit, Proc.bind]
    cases validateFlags o <;> simp [Proc.bind]

/-- When `validateFlags` exits, the whole process ends in `init` with usage text
and one error line, or with that exit. -/
theorem program_of_validateFlags_exit (w : World) (o : Options) (log : List Event) (code : Nat)
    (h : validateFlags o = .exit log code) :
    program w o = .exit log code ∨
      ∃ msg, program w o = .exit [.printHelp, .stderrError msg] 1 := by
  unfold program
  rw [init_eq]
  split_ifs with hc
  · exact Or.inr ⟨"config file ghe-license-mailer.yml not found in " ++ o.cfg, by simp⟩
  · exact Or.inl (by simp [h])

/-- C1: for every SMTP configuration whose authentication tag is none of
`plain`, `login`, `cram_md5` (the empty tag included) and every message body,
`sendMail` returns the error `authentication required` and records no
event at all: the mail transport is never invoked. -/
theorem c1_sendMail_authentication_required (w : World) (to_ : List String) (body : String)
    (s : SMTP) (h : s.Auth ≠ "plain" ∧ s.Auth ≠ "login" ∧ s.Auth ≠ "cram_md5") :
    sendMail w to_ body s = .ret [] (some "authentication required") ∧
      ∀ req, Event.smtpSendMail req ∉ (sendMail w to_ body s).log := by
  have hs : sendMail w to_ body s = .ret [] (some "authentication required") := by
    simp [sendMail, selectAuth, h.1, h.2.1, h.2.2]
  refine ⟨hs, ?_⟩
  intro req
  simp [hs, Proc.log]

/-- C1 at the empty tag. -/
theorem c1_witness :
    (("" : String) ≠ "plain" ∧ ("" : String) ≠ "login" ∧ ("" : String) ≠ "cram_md5") ∧
    (sendMail sampleWorld ["ops@acme.test"] "hello" { acmeSMTP with Auth := "" }
        = .ret [] (some "authentication required") ∧
      ∀ req, Event.smtpSendMail req ∉
        (sendMail sampleWorld ["ops@acme.test"] "hello" { acmeSMTP with Auth := "" }).log) :=
  ⟨by decide,
   c1_sendMail_authentication_required sampleWorld ["ops@acme.test"] "hello"
     { acmeSMTP with Auth := "" } (by decide)⟩

/-- C6: `sendMail` picks the authentication from the tag alone.  The tags
`plain` and `login`, and no other, select `PlainAuth` with empty identity,
the configuration's username, password and host address; the tag `cram_md5`,
and no other, selects `CRAMMD5Auth` with the username and password; every
other tag (a different spelling or case, such as `PLAIN`) selects nothing.
Whatever is selected is the authentication of the request `sendMail` hands to
the transport. -/
theorem c6_selectAuth_by_tag (w : World) (to_ : List String) (body : String) (s : SMTP) :
    ((∃ a b c d, selectAuth s = some (.PlainAuth a b c d)) ↔
        (s.Auth = "plain" ∨ s.Auth = "login")) ∧
    (selectAuth s = some (.PlainAuth "" s.Username s.Password s.Address) ↔
        (s.Auth = "plain" ∨ s.Auth = "login")) ∧
    ((∃ a b, selectAuth s = some (.CRAMMD5Auth a b)) ↔ s.Auth = "cram_md5") ∧
    (selectAuth s = some (.CRAMMD5Auth s.Username s.Password) ↔ s.Auth = "cram_md5") ∧
    (selectAuth s = none ↔ (s.Auth ≠ "plain" ∧ s.Auth ≠ "login" ∧ s.Auth ≠ "cram_md5")) ∧
    selectAuth { s with Auth := "PLAIN" } = none ∧
    selectAuth { s with Auth := "Login" } = none ∧
    selectAuth { s with Auth := "cram-md5" } = none ∧
    (∀ auth, selectAuth s = some auth →
      (sendMail w to_ body s).log =
        [.smtpSendMail ⟨s.Address ++ ":" ++ toString s.Port, auth, s.From, to_, body⟩]) := by
  refine ⟨?_, ?_, ?_, ?_, ?_, by simp [selectAuth], by simp [selectAuth],
    by simp [selectAuth], ?_⟩
  · unfold selectAuth
    split_ifs with h1 h2 <;> simp_all
  · unfold selectAuth
    split_ifs with h1 h2 <;> simp_all
  · unfold selectAuth
    split_ifs with h1 h2 <;> simp_all
    rcases h1 with h1 | h1 <;> simp [h1]
  · unfold selectAuth
    split_ifs with h1 h2 <;> simp_all
    rcases h1 with h1 | h1 <;> simp [h1]
  · unfold selectAuth
    split_ifs with h1 h2 <;> simp_all
    intro a b
    rcases h1 with h1 | h1 <;> contradiction
  · intro auth ha
    simp [sendMail, ha, emit, Proc.bind, Proc.log]

/-- C7: for a supported tag, `sendMail` makes exactly one transport send, to
`<address>:<port>`, with the selected authentication, the configuration's
noreply address as the envelope sender, the whole recipient list in its
order and the message unchanged, and returns exactly what the transport
returns. -/
theorem c7_sendMail_single_send (w : World) (to_ : List String) (body : String) (s : SMTP)
    (h : s.Auth = "plain" ∨ s.Auth = "login" ∨ s.Auth = "cram_md5") :
    ∃ auth, selectAuth s = some auth ∧
      sendMail w to_ body s =
        .ret [.smtpSendMail ⟨s.Address ++ ":" ++ toString s.Port, auth, s.From, to_, body⟩]
          (w.smtpSendMail ⟨s.Address ++ ":" ++ toString s.Port, auth, s.From, to_, body⟩) := by
  have hsel : ∃ auth, selectAuth s = some auth := by
    unfold selectAuth
    rcases h with h | h | h <;> simp [h]
  obtain ⟨auth, ha⟩ := hsel
  exact ⟨auth, ha, by simp [sendMail, ha, emit, Proc.bind]⟩

/-- C7 on the end-to-end example, with a transport that fails. -/
theorem c7_witness :
    (acmeSMTP.Auth = "plain" ∨ acmeSMTP.Auth = "login" ∨ acmeSMTP.Auth = "cram_md5") ∧
    ∃ auth, selectAuth acmeSMTP = some auth ∧
      sendMail { sampleWorld with smtpSendMail := fun _ => some "dial tcp: timeout" }
          ["ops@acme.test", "cfo@acme.test"] "hello" acmeSMTP =
        .ret [.smtpSendMail ⟨"smtp.acme.test" ++ ":" ++ toString (587 : Int), auth,
                "noreply@acme.test", ["ops@acme.test", "cfo@acme.test"], "hello"⟩]
          (some "dial tcp: timeout") :=
  ⟨by decide,
   c7_sendMail_single_send { sampleWorld with smtpSendMail := fun _ => some "dial tcp: timeout" }
     ["ops@acme.test", "cfo@acme.test"] "hello" acmeSMTP (by decide)⟩

/-- C3, as stated, fails when help is requested: with hostname, token,
password and recipients all missing, `validateFlags` prints the usage text
and exits with status 0, and so does the whole process. -/
theorem c3_counterexample_help_exits_zero :
    (helpOnlyOptions.hostname = "" ∧ helpOnlyOptions.token = "" ∧
      helpOnlyOptions.pwd = "" ∧ helpOnlyOptions.to_ = []) ∧
    validateFlags helpOnlyOptions = .exit [.printHelp] 0 ∧
    program sampleWorld helpOnlyOptions = .exit [.printHelp] 0 ∧
    exitStatus (program sampleWorld helpOnlyOptions) = 0 := by
  refine ⟨by decide, rfl, rfl, rfl⟩

/-- C3 (amended): when help is not requested and at least one of hostname,
token, password or the recipient list is missing, whichever they are,
`validateFlags` prints the usage text and one error line and exits with
status 1; the whole process then consists of the usage text and one error
line and exits with status 1, so the HTTP client is never built and no
settings fetch, license fetch or mail send takes place. -/
theorem c3_missing_input_exits_one (w : World) (o : Options) (hhelp : o.help = false)
    (hmiss : o.hostname = "" ∨ o.token = "" ∨ o.pwd = "" ∨ o.to_ = []) :
    (∃ msg, validateFlags o = .exit [.printHelp, .stderrError msg] 1) ∧
    (∃ msg, program w o = .exit [.printHelp, .stderrError msg] 1) ∧
    exitStatus (program w o) = 1 := by
  have hv : ∃ msg, validateFlags o = .exit [.printHelp, .stderrError msg] 1 := by
    rw [validateFlags_eq]
    simp only [hhelp, Bool.false_eq_true, if_false]
    split_ifs with h1 h2 h3 h4 h5
    · exact ⟨_, rfl⟩
    · exact ⟨_, rfl⟩
    · exact ⟨_, rfl⟩
    · exact ⟨_, rfl⟩
    · exact ⟨_, rfl⟩
    · exfalso
      rcases hmiss with h | h | h | h <;> contradiction
  obtain ⟨msg, hmsg⟩ := hv
  have hp : ∃ msg2, program w o = .exit [.printHelp, .stderrError msg2] 1 := by
    rcases program_of_validateFlags_exit w o _ _ hmsg with h | h
    · exact ⟨msg, h⟩
    · exact h
  obtain ⟨msg2, hmsg2⟩ := hp
  exact ⟨⟨msg, hmsg⟩, ⟨msg2, hmsg2⟩, by rw [hmsg2]; rfl⟩

/-- C3 (amended) with the token and the recipients missing. -/
theorem c3_witness :
    ({ sampleOptions with token := "", to_ := [] } : Options).help = false ∧
    ((∃ msg, validateFlags { sampleOptions with token := "", to_ := [] }
        = .exit [.printHelp, .stderrError msg] 1) ∧
     (∃ msg, program sampleWorld { sampleOptions with token := "", to_ := [] }
        = .exit [.printHelp, .stderrError msg] 1) ∧
     exitStatus (program sampleWorld { sampleOptions with token := "", to_ := [] }) = 1) :=
  ⟨rfl, c3_missing_input_exits_one sampleWorld { sampleOptions with token := "", to_ := [] } rfl
    (Or.inr (Or.inl rfl))⟩

/-- C9: when the hostname is exactly `github.com` and help is not requested,
whatever the token, password and recipients are, `validateFlags` prints the
usage text and the error `github.com is not supported` and exits with
status 1; the process ends in `init` with exit status 1 after the usage
text and one error line, before the HTTP client is built and before any
request, and that line is the `github.com` error unless the configuration
file named on the command line could not be read. -/
theorem c9_github_com_rejected (w : World) (o : Options) (hhost : o.hostname = "github.com")
    (hhelp : o.help = false) :
    validateFlags o = .exit [.printHelp, .stderrError "github.com is not supported"] 1 ∧
    (∃ msg, program w o = .exit [.printHelp, .stderrError msg] 1) ∧
    (¬ (w.readInConfigFails = true ∧ o.cfg ≠ "") →
      program w o = .exit [.printHelp, .stderrError "github.com is not supported"] 1) := by
  have hv : validateFlags o =
      .exit [.printHelp, .stderrError "github.com is not supported"] 1 := by
    rw [validateFlags_eq]
    simp [hhelp, hhost]
  refine ⟨hv, ?_, ?_⟩
  · rcases program_of_validateFlags_exit w o _ _ hv with h | h
    · exact ⟨_, h⟩
    · exact h
  · intro hc
    unfold program
    rw [init_eq, if_neg hc, hv]
    rfl

/-- C9 with complete options apart from the hostname. -/
theorem c9_witness :
    ({ sampleOptions with hostname := "github.com" } : Options).hostname = "github.com" ∧
    ({ sampleOptions with hostname := "github.com" } : Options).help = false ∧
    (validateFlags { sampleOptions with hostname := "github.com" }
        = .exit [.printHelp, .stderrError "github.com is not supported"] 1 ∧
     (∃ msg, program sampleWorld { sampleOptions with hostname := "github.com" }
        = .exit [.printHelp, .stderrError msg] 1) ∧
     (¬ (sampleWorld.readInConfigFails = true ∧
          ({ sampleOptions with hostname := "github.com" } : Options).cfg ≠ "") →
       program sampleWorld { sampleOptions with hostname := "github.com" }
         = .exit [.printHelp, .stderrError "github.com is not supported"] 1)) :=
  ⟨rfl, rfl, c9_github_com_rejected sampleWorld { sampleOptions with hostname := "github.com" }
    rfl rfl⟩

/-- C4: when the settings request is answered with status 200 and the
decoded `smtp.enabled` is false, `getSettings` prints the raw body to the
error stream and exits with status 1; `main` therefore ends right after the
settings request: the license request and the mail dispatch never happen. -/
theorem c4_smtp_disabled_aborts (w : World) (o : Options) (httpClient : Client)
    (status body : String)
    (hresp : w.http .default (settingsURL o) = .response 200 status body)
    (hoff : (w.unmarshalSettings body).Enterprise.SMTP.Enabled = false) :
    getSettings w o =
      .exit [.httpGet .default (settingsURL o), .stderrError body] 1 ∧
    main w o httpClient =
      .exit [.stdout "Retrieving settings...", .httpGet .default (settingsURL o),
             .stderrError body] 1 ∧
    (main w o httpClient).log.filter Event.isNetwork = [.httpGet .default (settingsURL o)] ∧
    (∀ req, Event.smtpSendMail req ∉ (main w o httpClient).log) := by
  have hg : getSettings w o =
      .exit [.httpGet .default (settingsURL o), .stderrError body] 1 := by
    simp [getSettings, hresp, hoff, emit, osExit, Proc.bind]
  have hm : main w o httpClient =
      .exit [.stdout "Retrieving settings...", .httpGet .default (settingsURL o),
             .stderrError body] 1 := by
    simp [main, hg, emit, Proc.bind]
  refine ⟨hg, hm, ?_, ?_⟩
  · simp [hm, Proc.log, Event.isNetwork]
  · intro req
    simp [hm, Proc.log]

/-- C4 on the example with SMTP switched off. -/
theorem c4_witness :
    (disabledWorld.http .default (settingsURL sampleOptions) = .response 200 "200 OK" "{}" ∧
     (disabledWorld.unmarshalSettings "{}").Enterprise.SMTP.Enabled = false) ∧
    (getSettings disabledWorld sampleOptions =
      .exit [.httpGet .default (settingsURL sampleOptions), .stderrError "{}"] 1 ∧
    main disabledWorld sampleOptions (.oauth2 "t0ken") =
      .exit [.stdout "Retrieving settings...", .httpGet .default (settingsURL sampleOptions),
             .stderrError "{}"] 1 ∧
    (main disabledWorld sampleOptions (.oauth2 "t0ken")).log.filter Event.isNetwork
      = [.httpGet .default (settingsURL sampleOptions)] ∧
    (∀ req, Event.smtpSendMail req ∉ (main disabledWorld sampleOptions (.oauth2 "t0ken")).log)) :=
  ⟨⟨rfl, rfl⟩,
   c4_smtp_disabled_aborts disabledWorld sampleOptions (.oauth2 "t0ken") "200 OK" "{}" rfl rfl⟩

theorem parseTemplate_tpl : parseTemplate tpl = some tplNodes := by rfl

theorem pieces_append (xs ys : List String) : pieces (xs ++ ys) = pieces xs ++ pieces ys := by
  induction xs with
  | nil => simp [pieces]
  | cons x xs ih =>
    simp only [pieces, List.cons_append, List.foldr_cons] at ih ⊢
    rw [ih, String.append_assoc]

theorem executeTemplate_tpl (d : Template) :
    executeTemplate tpl d = .ok (pieces
      ["Subject: ", d.Company, ": GitHub Enterprise Server license usage report ", d.Date,
       "\nFrom: ", d.From, "\nTo: ", d.To,
       "\n\nOn ", d.Date, " at ", d.Time, " ", d.TZ, " (servertime) ", d.Company,
       " has assigned ", toString d.SeatsUsed, " seats of their ", d.Seats, " available.",
       seatsBlock d.SeatsAvailable,
       "\n\nLicense will expire in ", toString d.DaysUntilExpiration, " days on ", d.ExpireAt,
       ".\n\n---\nThis email was gernerated automatically."]) := by
  unfold executeTemplate
  rw [parseTemplate_tpl]
  by_cases h : d.SeatsAvailable = "" <;>
  simp [tplNodes, execNodes, execNode, Template.lookup, Value.print, Value.isTrue, seatsBlock, h,
    pieces, String.append_assoc]

theorem sub_of_tail {n t : List Char} (h : n <:+: t) (hd : List Char) : n <:+: hd ++ t :=
  h.trans (List.suffix_append hd t).isInfix

set_option maxRecDepth 100000 in
theorem acmeTail_eq : acmeTail = " (servertime) Acme has assigned 420 seats of their 500 available.\n80 seats remaining.\n\nLicense will expire in 30 days on March 1, 2025.\n\n---\nThis email was gernerated automatically." := by
  decide

theorem renderReport_acme (start : Clock) (to_ : List String) :
    renderReport start acmeSettings acmeLicense to_ = .ok (pieces
      ["Subject: ", "Acme", ": GitHub Enterprise Server license usage report ", formatDate start.date,
       "\nFrom: ", "noreply@acme.test", "\nTo: ", getRecipients to_,
       "\n\nOn ", formatDate start.date, " at ", formatTime start.hour start.minute, " ",
       start.zone] ++ acmeTail) := by
  unfold renderReport
  rw [executeTemplate_tpl, acmeTail, ← pieces_append]
  rfl

set_option maxRecDepth 100000 in
theorem acmeTail_contains :
    "Acme".data <:+: acmeTail.data ∧ "420".data <:+: acmeTail.data ∧
    "500".data <:+: acmeTail.data ∧ "80 seats remaining".data <:+: acmeTail.data ∧
    "30 days".data <:+: acmeTail.data ∧ "March 1, 2025".data <:+: acmeTail.data := by
  rw [acmeTail_eq]
  decide

/-- C5: for every clock reading and every recipient list (empty or not),
rendering the report from the example's settings (customer `Acme`, noreply
address `noreply@acme.test`) and license (seats `500`, used 420, available
`80`, 30 days, `expire_at` `2025-03-01T00:00:00Z`) succeeds, and the text
contains `Acme`, `420`, `500`, `80 seats remaining`, `30 days` and
`March 1, 2025`. -/
theorem c5_acme_report (start : Clock) (to_ : List String) :
    ∃ msg, renderReport start acmeSettings acmeLicense to_ = .ok msg ∧
      "Acme".data <:+: msg.data ∧ "420".data <:+: msg.data ∧ "500".data <:+: msg.data ∧
      "80 seats remaining".data <:+: msg.data ∧ "30 days".data <:+: msg.data ∧
      "March 1, 2025".data <:+: msg.data := by
  refine ⟨_, renderReport_acme start to_, ?_⟩
  simp only [String.data_append]
  obtain ⟨h1, h2, h3, h4, h5, h6⟩ := acmeTail_contains
  exact ⟨sub_of_tail h1 _, sub_of_tail h2 _, sub_of_tail h3 _, sub_of_tail h4 _,
    sub_of_tail h5 _, sub_of_tail h6 _⟩

theorem sub_mid (a n b : String) : n.data <:+: (a ++ (n ++ b)).data :=
  ⟨a.data, b.data, by simp [String.data_append]⟩

theorem executeTemplate_tplWithoutSeatsLine (d : Template) :
    executeTemplate tplWithoutSeatsLine d = .ok (pieces
      ["Subject: ", d.Company, ": GitHub Enterprise Server license usage report ", d.Date,
       "\nFrom: ", d.From, "\nTo: ", d.To,
       "\n\nOn ", d.Date, " at ", d.Time, " ", d.TZ, " (servertime) ", d.Company,
       " has assigned ", toString d.SeatsUsed, " seats of their ", d.Seats,
       " available.\n\nLicense will expire in ", toString d.DaysUntilExpiration, " days on ",
       d.ExpireAt, ".\n\n---\nThis email was gernerated automatically."]) := by
  have hp : parseTemplate tplWithoutSeatsLine = some
      [.text "Subject: ", .field "Company",
       .text ": GitHub Enterprise Server license usage report ", .field "Date",
       .text "\nFrom: ", .field "From", .text "\nTo: ", .field "To",
       .text "\n\nOn ", .field "Date", .text " at ", .field "Time", .text " ", .field "TZ",
       .text " (servertime) ", .field "Company", .text " has assigned ", .field "SeatsUsed",
       .text " seats of their ", .field "Seats",
       .text " available.\n\nLicense will expire in ", .field "DaysUntilExpiration",
       .text " days on ", .field "ExpireAt",
       .text ".\n\n---\nThis email was gernerated automatically."] := by rfl
  unfold executeTemplate
  rw [hp]
  simp [execNodes, execNode, Template.lookup, Value.print, pieces, String.append_assoc]

theorem render_without_seats (d : Template) (h : d.SeatsAvailable = "") :
    executeTemplate tpl d = executeTemplate tplWithoutSeatsLine d := by
  rw [executeTemplate_tpl, executeTemplate_tplWithoutSeatsLine, h]
  rfl

theorem render_with_seats (d : Template) (h : d.SeatsAvailable ≠ "") :
    ∃ msg, executeTemplate tpl d = .ok msg ∧
      ("\n" ++ d.SeatsAvailable ++ " seats remaining.\n").data <:+: msg.data := by
  refine ⟨_, executeTemplate_tpl d, ?_⟩
  have hsplit : pieces
      ["Subject: ", d.Company, ": GitHub Enterprise Server license usage report ", d.Date,
       "\nFrom: ", d.From, "\nTo: ", d.To,
       "\n\nOn ", d.Date, " at ", d.Time, " ", d.TZ, " (servertime) ", d.Company,
       " has assigned ", toString d.SeatsUsed, " seats of their ", d.Seats, " available.",
       seatsBlock d.SeatsAvailable,
       "\n\nLicense will expire in ", toString d.DaysUntilExpiration, " days on ", d.ExpireAt,
       ".\n\n---\nThis email was gernerated automatically."] =
      pieces ["Subject: ", d.Company, ": GitHub Enterprise Server license usage report ", d.Date,
       "\nFrom: ", d.From, "\nTo: ", d.To,
       "\n\nOn ", d.Date, " at ", d.Time, " ", d.TZ, " (servertime) ", d.Company,
       " has assigned ", toString d.SeatsUsed, " seats of their ", d.Seats, " available."] ++
      (("\n" ++ d.SeatsAvailable ++ " seats remaining.\n") ++
       pieces ["\nLicense will expire in ", toString d.DaysUntilExpiration, " days on ",
         d.ExpireAt, ".\n\n---\nThis email was gernerated automatically."]) := by
    apply String.ext
    simp only [pieces, List.foldr_cons, List.foldr_nil, seatsBlock, h, if_false,
      String.data_append, List.append_assoc]
    rfl
  rw [hsplit]
  exact sub_mid _ _ _

set_option maxRecDepth 100000 in
/-- C2, as stated, fails at the empty value: `seats_available` is then not
`unlimited`, yet the rendered report has no line ` seats remaining.`; the
words `seats remaining` do not occur in it at all. -/
theorem c2_counterexample_empty_value :
    emptySeatsLicense.SeatsAvailable ≠ "unlimited" ∧
    renderReport sampleClock acmeSettings emptySeatsLicense ["ops@acme.test"]
      = .ok emptySeatsReport ∧
    ¬ ("\n" ++ emptySeatsLicense.SeatsAvailable ++ " seats remaining.").data
        <:+: emptySeatsReport.data ∧
    ¬ "seats remaining".data <:+: emptySeatsReport.data := by
  refine ⟨by decide, by rfl, by decide, by decide⟩

/-- C2 (amended): the report `main` renders from a license omits the seats
line when `seats_available` is `unlimited` or empty: the message is then
the one the template without the `if` block renders.  For every other
value `v` the message holds the line `v seats remaining.` with exactly
that value, between two line feeds. -/
theorem c2_seats_remaining_line (start : Clock) (settings : Settings) (license : License)
    (to_ : List String) :
    ((license.SeatsAvailable = "unlimited" ∨ license.SeatsAvailable = "") →
      ∃ msg, renderReport start settings license to_ = .ok msg ∧
        executeTemplate tplWithoutSeatsLine (buildTemplate start settings license to_)
          = .ok msg) ∧
    ((license.SeatsAvailable ≠ "unlimited" ∧ license.SeatsAvailable ≠ "") →
      ∃ msg, renderReport start settings license to_ = .ok msg ∧
        ("\n" ++ license.SeatsAvailable ++ " seats remaining.\n").data <:+: msg.data) := by
  constructor
  · intro h
    have he : (buildTemplate start settings license to_).SeatsAvailable = "" := by
      rcases h with h | h <;> simp [buildTemplate, available, h]
    refine ⟨_, ?_, executeTemplate_tplWithoutSeatsLine _⟩
    unfold renderReport
    rw [render_without_seats _ he, executeTemplate_tplWithoutSeatsLine]
  · intro h
    have he : (buildTemplate start settings license to_).SeatsAvailable
        = license.SeatsAvailable := by
      simp [buildTemplate, available, h.1]
    have hne : (buildTemplate start settings license to_).SeatsAvailable ≠ "" := by
      rw [he]
      exact h.2
    obtain ⟨msg, hmsg, hsub⟩ := render_with_seats _ hne
    rw [he] at hsub
    exact ⟨msg, hmsg, hsub⟩

theorem splitLines_ne_nil (cs : List Char) : splitLines cs ≠ [] := by
  cases cs with
  | nil => simp [splitLines]
  | cons c cs =>
    unfold splitLines
    split
    · simp
    · split_ifs <;> simp

theorem splitLines_lf (rest : List Char) : splitLines ('\n' :: rest) = [] :: splitLines rest := by
  have h := splitLines_ne_nil rest
  rw [splitLines]
  cases hr : splitLines rest with
  | nil => exact absurd hr h
  | cons l ls => simp

theorem splitLines_append_lf (a rest : List Char) (h : '\n' ∉ a) :
    splitLines (a ++ '\n' :: rest) = a :: splitLines rest := by
  induction a with
  | nil => simpa using splitLines_lf rest
  | cons c a ih =>
    have hc : c ≠ '\n' := fun e => h (by simp [e])
    have ha : '\n' ∉ a := fun e => h (by simp [e])
    rw [List.cons_append, splitLines, ih ha]
    simp [hc]

set_option maxRecDepth 100000 in
/-- C8, as stated, fails when a field holds line feeds: with the customer
name `Acme\n\nInc` the first line of the message is `Subject: Acme`, which
is not the subject header the claim describes, and the first blank line is
the second line, before the `From` and `To` headers. -/
theorem c8_counterexample_line_feed :
    renderReport sampleClock injectedSettings acmeLicense ["ops@acme.test"]
      = .ok injectedReport ∧
    (splitLines injectedReport.data).take 2 = ["Subject: Acme".data, []] ∧
    (subjectLine (buildTemplate sampleClock injectedSettings acmeLicense ["ops@acme.test"])).data
      ≠ "Subject: Acme".data := by
  refine ⟨by rfl, by decide, by decide⟩

theorem subjectLine_singleLine (d : Template) (hC : singleLine d.Company) (hD : singleLine d.Date) :
    '\n' ∉ (subjectLine d).data := by
  unfold singleLine at hC hD
  simp only [subjectLine, String.data_append, List.mem_append, not_or]
  exact ⟨⟨⟨by decide, hC⟩, by decide⟩, hD⟩

theorem fromLine_singleLine (d : Template) (hF : singleLine d.From) :
    '\n' ∉ (fromLine d).data := by
  unfold singleLine at hF
  simp only [fromLine, String.data_append, List.mem_append, not_or]
  exact ⟨by decide, hF⟩

theorem toLine_singleLine (d : Template) (hT : singleLine d.To) :
    '\n' ∉ (toLine d).data := by
  unfold singleLine at hT
  simp only [toLine, String.data_append, List.mem_append, not_or]
  exact ⟨by decide, hT⟩

theorem executeTemplate_tpl_headers (d : Template) :
    executeTemplate tpl d = .ok
      (subjectLine d ++ "\n" ++ fromLine d ++ "\n" ++ toLine d ++ "\n" ++ "\n" ++ reportBody d) := by
  rw [executeTemplate_tpl]
  congr 1
  apply String.ext
  simp only [pieces, reportBody, subjectLine, fromLine, toLine, List.foldr_cons, List.foldr_nil,
    String.data_append, List.append_assoc]
  rfl

/-- C8 (amended): for every `Template` value whose `Company`, `Date`, `From`
and `To` hold no line feed, the rendered message is the three header lines
`Subject: <Company>: GitHub Enterprise Server license usage report <Date>`,
`From: <From>`, `To: <To>`, in this order, then a blank line, then the
body: its lines start with these three non-empty lines and the blank line
comes fourth, right after the `To` header.  In `main` the `To` field is the
recipients joined by `,`. -/
theorem c8_headers (d : Template) (hC : singleLine d.Company) (hD : singleLine d.Date)
    (hF : singleLine d.From) (hT : singleLine d.To) :
    (∃ msg, executeTemplate tpl d = .ok msg ∧
      msg = subjectLine d ++ "\n" ++ fromLine d ++ "\n" ++ toLine d ++ "\n" ++ "\n" ++ reportBody d ∧
      splitLines msg.data =
        (subjectLine d).data :: (fromLine d).data :: (toLine d).data :: [] ::
          splitLines (reportBody d).data ∧
      (subjectLine d).data ≠ [] ∧ (fromLine d).data ≠ [] ∧ (toLine d).data ≠ []) ∧
    (∀ start settings license to_,
      (buildTemplate start settings license to_).To = ",".intercalate to_) := by
  refine ⟨⟨_, executeTemplate_tpl_headers d, rfl, ?_, ?_, ?_, ?_⟩, fun _ _ _ _ => rfl⟩
  · have e : (subjectLine d ++ "\n" ++ fromLine d ++ "\n" ++ toLine d ++ "\n" ++ "\n"
        ++ reportBody d).data =
        (subjectLine d).data ++ '\n' :: ((fromLine d).data ++ '\n' :: ((toLine d).data ++
          '\n' :: '\n' :: (reportBody d).data)) := by
      simp only [String.data_append, List.append_assoc]
      rfl
    rw [e, splitLines_append_lf _ _ (subjectLine_singleLine d hC hD),
      splitLines_append_lf _ _ (fromLine_singleLine d hF),
      splitLines_append_lf _ _ (toLine_singleLine d hT), splitLines_lf]
  · simp [subjectLine, String.data_append]
  · simp [fromLine, String.data_append]
  · simp [toLine, String.data_append]

theorem sendMail_of_selectAuth (w : World) (to_ : List String) (body : String) (s : SMTP)
    (auth : Auth) (h : selectAuth s = some auth) :
    sendMail w to_ body s =
      .ret [.smtpSendMail ⟨s.Address ++ ":" ++ toString s.Port, auth, s.From, to_, body⟩]
        (w.smtpSendMail ⟨s.Address ++ ":" ++ toString s.Port, auth, s.From, to_, body⟩) := by
  simp [sendMail, h, emit, Proc.bind]

theorem expireDate_of_parse_none (s : String) (h : parseRFC3339 s = none) :
    formatDate (expireDate s) = "January 1, 1" := by
  unfold expireDate
  rw [h]
  decide

theorem expireDate_zero : formatDate (expireDate "0001-01-01T00:00:00Z") = "January 1, 1" := by
  decide

theorem buildTemplate_of_parse_none (start : Clock) (settings : Settings) (license : License)
    (to_ : List String) (h : parseRFC3339 license.ExpireAt = none) :
    buildTemplate start settings license to_ =
      buildTemplate start settings { license with ExpireAt := "0001-01-01T00:00:00Z" } to_ := by
  simp [buildTemplate, expireDate_of_parse_none _ h, expireDate_zero, available]

theorem render_expiry (d : Template) :
    ∃ msg, executeTemplate tpl d = .ok msg ∧
      (" days on " ++ d.ExpireAt ++ ".\n").data <:+: msg.data := by
  refine ⟨_, executeTemplate_tpl d, ?_⟩
  have hsplit : pieces
      ["Subject: ", d.Company, ": GitHub Enterprise Server license usage report ", d.Date,
       "\nFrom: ", d.From, "\nTo: ", d.To,
       "\n\nOn ", d.Date, " at ", d.Time, " ", d.TZ, " (servertime) ", d.Company,
       " has assigned ", toString d.SeatsUsed, " seats of their ", d.Seats, " available.",
       seatsBlock d.SeatsAvailable,
       "\n\nLicense will expire in ", toString d.DaysUntilExpiration, " days on ", d.ExpireAt,
       ".\n\n---\nThis email was gernerated automatically."] =
      pieces ["Subject: ", d.Company, ": GitHub Enterprise Server license usage report ", d.Date,
       "\nFrom: ", d.From, "\nTo: ", d.To,
       "\n\nOn ", d.Date, " at ", d.Time, " ", d.TZ, " (servertime) ", d.Company,
       " has assigned ", toString d.SeatsUsed, " seats of their ", d.Seats, " available.",
       seatsBlock d.SeatsAvailable,
       "\n\nLicense will expire in ", toString d.DaysUntilExpiration] ++
      ((" days on " ++ d.ExpireAt ++ ".\n") ++
        "\n---\nThis email was gernerated automatically.") := by
    apply String.ext
    simp only [pieces, List.foldr_cons, List.foldr_nil, String.data_append, List.append_assoc]
    rfl
  rw [hsplit]
  exact sub_mid _ _ _

theorem main_withExpireAt (w : World) (o : Options) (httpClient : Client) (status body : String)
    (hL : w.http httpClient (licenseURL o) = .response 200 status body)
    (hbad : parseRFC3339 (w.unmarshalLicense body).ExpireAt = none) :
    main w o httpClient = main (withExpireAt w "0001-01-01T00:00:00Z") o httpClient := by
  have hgs : getSettings (withExpireAt w "0001-01-01T00:00:00Z") o = getSettings w o := rfl
  have hgl : getLicense w o httpClient
      = .ret [.httpGet httpClient (licenseURL o)] (w.unmarshalLicense body) := by
    simp [getLicense, hL, emit, Proc.bind]
  have hgl2 : getLicense (withExpireAt w "0001-01-01T00:00:00Z") o httpClient
      = .ret [.httpGet httpClient (licenseURL o)]
          { w.unmarshalLicense body with ExpireAt := "0001-01-01T00:00:00Z" } := by
    simp [getLicense, hL, emit, Proc.bind, withExpireAt]
  have hsm : ∀ b s, sendMail (withExpireAt w "0001-01-01T00:00:00Z") o.to_ b s
      = sendMail w o.to_ b s := fun _ _ => rfl
  have hst : (withExpireAt w "0001-01-01T00:00:00Z").start = w.start := rfl
  have hel : (withExpireAt w "0001-01-01T00:00:00Z").elapsed = w.elapsed := rfl
  have hr : ∀ settings, renderReport w.start settings (w.unmarshalLicense body) o.to_
      = renderReport w.start settings
          { w.unmarshalLicense body with ExpireAt := "0001-01-01T00:00:00Z" } o.to_ := by
    intro settings
    unfold renderReport
    rw [buildTemplate_of_parse_none _ _ _ _ hbad]
  unfold main
  simp only [hgs, hgl, hgl2, hsm, hst, hel, Proc.bind_eq]
  cases getSettings w o with
  | exit log code => rfl
  | ret log settings => simp only [Proc.bind, emit, hr]

/-- C8 (amended) on the report of the end-to-end example. -/
theorem c8_witness :
    (singleLine (buildTemplate sampleClock acmeSettings acmeLicense ["ops@acme.test"]).Company ∧
     singleLine (buildTemplate sampleClock acmeSettings acmeLicense ["ops@acme.test"]).Date ∧
     singleLine (buildTemplate sampleClock acmeSettings acmeLicense ["ops@acme.test"]).From ∧
     singleLine (buildTemplate sampleClock acmeSettings acmeLicense ["ops@acme.test"]).To) ∧
    ((∃ msg, executeTemplate tpl
          (buildTemplate sampleClock acmeSettings acmeLicense ["ops@acme.test"]) = .ok msg ∧
      msg = subjectLine (buildTemplate sampleClock acmeSettings acmeLicense ["ops@acme.test"])
        ++ "\n" ++ fromLine (buildTemplate sampleClock acmeSettings acmeLicense ["ops@acme.test"])
        ++ "\n" ++ toLine (buildTemplate sampleClock acmeSettings acmeLicense ["ops@acme.test"])
        ++ "\n" ++ "\n"
        ++ reportBody (buildTemplate sampleClock acmeSettings acmeLicense ["ops@acme.test"]) ∧
      splitLines msg.data =
        (subjectLine (buildTemplate sampleClock acmeSettings acmeLicense ["ops@acme.test"])).data ::
        (fromLine (buildTemplate sampleClock acmeSettings acmeLicense ["ops@acme.test"])).data ::
        (toLine (buildTemplate sampleClock acmeSettings acmeLicense ["ops@acme.test"])).data ::
        [] ::
        splitLines
          (reportBody (buildTemplate sampleClock acmeSettings acmeLicense ["ops@acme.test"])).data ∧
      (subjectLine (buildTemplate sampleClock acmeSettings acmeLicense ["ops@acme.test"])).data ≠ [] ∧
      (fromLine (buildTemplate sampleClock acmeSettings acmeLicense ["ops@acme.test"])).data ≠ [] ∧
      (toLine (buildTemplate sampleClock acmeSettings acmeLicense ["ops@acme.test"])).data ≠ []) ∧
    (∀ start settings license to_,
      (buildTemplate start settings license to_).To = ",".intercalate to_)) :=
  ⟨by decide,
   c8_headers (buildTemplate sampleClock acmeSettings acmeLicense ["ops@acme.test"])
     (by decide) (by decide) (by decide) (by decide)⟩

/-- The run of `main` once both requests are answered with status 200, SMTP
is enabled, an authentication is selected and the report is rendered. -/
theorem main_of_responses (w : World) (o : Options) (httpClient : Client)
    (statusS bodyS statusL bodyL msg : String) (auth : Auth)
    (hS : w.http .default (settingsURL o) = .response 200 statusS bodyS)
    (hE : (w.unmarshalSettings bodyS).Enterprise.SMTP.Enabled = true)
    (hL : w.http httpClient (licenseURL o) = .response 200 statusL bodyL)
    (hA : selectAuth (w.unmarshalSettings bodyS).Enterprise.SMTP = some auth)
    (hR : renderReport w.start (w.unmarshalSettings bodyS) (w.unmarshalLicense bodyL) o.to_
      = .ok msg) :
    main w o httpClient =
      match w.smtpSendMail ⟨(w.unmarshalSettings bodyS).Enterprise.SMTP.Address ++ ":" ++
          toString (w.unmarshalSettings bodyS).Enterprise.SMTP.Port, auth,
          (w.unmarshalSettings bodyS).Enterprise.SMTP.From, o.to_, msg⟩ with
      | some err =>
        .exit [.stdout "Retrieving settings...", .httpGet .default (settingsURL o),
          .stdout "done\n", .stdout "Retrieving license information...",
          .httpGet httpClient (licenseURL o), .stdout "done\n",
          .stdout "Sending license information...",
          .smtpSendMail ⟨(w.unmarshalSettings bodyS).Enterprise.SMTP.Address ++ ":" ++
            toString (w.unmarshalSettings bodyS).Enterprise.SMTP.Port, auth,
            (w.unmarshalSettings bodyS).Enterprise.SMTP.From, o.to_, msg⟩,
          .stderrError err] 1
      | none =>
        .ret [.stdout "Retrieving settings...", .httpGet .default (settingsURL o),
          .stdout "done\n", .stdout "Retrieving license information...",
          .httpGet httpClient (licenseURL o), .stdout "done\n",
          .stdout "Sending license information...",
          .smtpSendMail ⟨(w.unmarshalSettings bodyS).Enterprise.SMTP.Address ++ ":" ++
            toString (w.unmarshalSettings bodyS).Enterprise.SMTP.Port, auth,
            (w.unmarshalSettings bodyS).Enterprise.SMTP.From, o.to_, msg⟩,
          .stdout "done\n", .stdout ("\nDone after " ++ w.elapsed ++ "\n")] () := by
  have hgs : getSettings w o
      = .ret [.httpGet .default (settingsURL o)] (w.unmarshalSettings bodyS) := by
    simp [getSettings, hS, hE, emit, Proc.bind]
  have hgl : getLicense w o httpClient
      = .ret [.httpGet httpClient (licenseURL o)] (w.unmarshalLicense bodyL) := by
    simp [getLicense, hL, emit, Proc.bind]
  unfold main
  simp only [hgs, hgl, hR, sendMail_of_selectAuth _ _ _ _ _ hA, Proc.bind_eq, Proc.bind, emit,
    errorAndExit_eq, List.cons_append, List.nil_append, List.singleton_append]
  cases w.smtpSendMail ⟨(w.unmarshalSettings bodyS).Enterprise.SMTP.Address ++ ":" ++
          toString (w.unmarshalSettings bodyS).Enterprise.SMTP.Port, auth,
          (w.unmarshalSettings bodyS).Enterprise.SMTP.From, o.to_, msg⟩ <;> rfl

/-- C10: when the license's `expire_at` does not parse as an RFC 3339
timestamp, `main` does not fail on it.  The expiration date is that of the
zero timestamp, so the report reads `on January 1, 1.`; the rendered message
is the one a license with the valid timestamp `0001-01-01T00:00:00Z` gives,
and the whole run of `main` is the run for that license.  With both requests
answered and an authentication selected, the message is handed to the mail
transport, and `main` returns normally when the transport succeeds. -/
theorem c10_unparsable_expire_at (w : World) (o : Options) (httpClient : Client)
    (status body : String)
    (hL : w.http httpClient (licenseURL o) = .response 200 status body)
    (hbad : parseRFC3339 (w.unmarshalLicense body).ExpireAt = none) :
    (∀ start settings to_,
      (buildTemplate start settings (w.unmarshalLicense body) to_).ExpireAt = "January 1, 1") ∧
    (∀ start settings to_, ∃ msg,
      renderReport start settings (w.unmarshalLicense body) to_ = .ok msg ∧
      " days on January 1, 1.\n".data <:+: msg.data ∧
      renderReport start settings
        { w.unmarshalLicense body with ExpireAt := "0001-01-01T00:00:00Z" } to_ = .ok msg) ∧
    parseRFC3339 "0001-01-01T00:00:00Z" = some zeroDate ∧
    main w o httpClient = main (withExpireAt w "0001-01-01T00:00:00Z") o httpClient ∧
    (∀ statusS bodyS auth,
      w.http .default (settingsURL o) = .response 200 statusS bodyS →
      (w.unmarshalSettings bodyS).Enterprise.SMTP.Enabled = true →
      selectAuth (w.unmarshalSettings bodyS).Enterprise.SMTP = some auth →
      ∃ msg,
        renderReport w.start (w.unmarshalSettings bodyS) (w.unmarshalLicense body) o.to_
          = .ok msg ∧
        Event.smtpSendMail ⟨(w.unmarshalSettings bodyS).Enterprise.SMTP.Address ++ ":" ++
            toString (w.unmarshalSettings bodyS).Enterprise.SMTP.Port, auth,
            (w.unmarshalSettings bodyS).Enterprise.SMTP.From, o.to_, msg⟩ ∈ (main w o httpClient).log ∧
        (w.smtpSendMail ⟨(w.unmarshalSettings bodyS).Enterprise.SMTP.Address ++ ":" ++
            toString (w.unmarshalSettings bodyS).Enterprise.SMTP.Port, auth,
            (w.unmarshalSettings bodyS).Enterprise.SMTP.From, o.to_, msg⟩ = none →
          exitStatus (main w o httpClient) = 0)) := by
  have hexp : ∀ start settings to_,
      (buildTemplate start settings (w.unmarshalLicense body) to_).ExpireAt = "January 1, 1" :=
    fun _ _ _ => expireDate_of_parse_none _ hbad
  refine ⟨hexp, ?_, by decide, main_withExpireAt w o httpClient status body hL hbad, ?_⟩
  · intro start settings to_
    obtain ⟨msg, hmsg, hsub⟩ :=
      render_expiry (buildTemplate start settings (w.unmarshalLicense body) to_)
    rw [hexp] at hsub
    refine ⟨msg, hmsg, hsub, ?_⟩
    unfold renderReport
    rw [← buildTemplate_of_parse_none _ _ _ _ hbad]
    exact hmsg
  · intro statusS bodyS auth hS hE hA
    obtain ⟨msg, hmsg, _⟩ :=
      render_expiry (buildTemplate w.start (w.unmarshalSettings bodyS)
        (w.unmarshalLicense body) o.to_)
    have hm := main_of_responses w o httpClient statusS bodyS status body msg auth hS hE hL hA hmsg
    refine ⟨msg, hmsg, ?_, ?_⟩
    · rw [hm]
      cases w.smtpSendMail ⟨(w.unmarshalSettings bodyS).Enterprise.SMTP.Address ++ ":" ++
            toString (w.unmarshalSettings bodyS).Enterprise.SMTP.Port, auth,
            (w.unmarshalSettings bodyS).Enterprise.SMTP.From, o.to_, msg⟩ <;> simp [Proc.log]
    · intro hnone
      rw [hm, hnone]
      rfl

/-- C10 on a license whose `expire_at` is `next spring`. -/
theorem c10_witness :
    (badExpiryWorld.http (.oauth2 "t0ken") (licenseURL sampleOptions)
        = .response 200 "200 OK" "{}" ∧
     parseRFC3339 (badExpiryWorld.unmarshalLicense "{}").ExpireAt = none) ∧
    main badExpiryWorld sampleOptions (.oauth2 "t0ken")
      = main (withExpireAt badExpiryWorld "0001-01-01T00:00:00Z") sampleOptions (.oauth2 "t0ken") :=
  ⟨⟨rfl, by decide⟩,
   (c10_unparsable_expire_at badExpiryWorld sampleOptions (.oauth2 "t0ken") "200 OK" "{}" rfl
     (by decide)).2.2.2.1⟩

end GheLicenseMailer
